import Mathlib

/-!
Verification development for the rental price listing repository.

Part A embeds the plain-Python helpers of the search apps (`app.py`,
`app3.py`): Python runtime values, `get_numeric_value`, and
`filter_properties`.  Part B embeds the duplicate-image check of
`app8.py`.  Part C models the rent valuation pipeline described in the
design document (feature aligner, rule-based validator, amenity uplift
calculator, valuation pipeline); that pipeline's implementation is not
among the provided source files, so it is modelled from the spec.
Monetary quantities are modelled as rationals, so "within floating-point
tolerance" statements become exact equalities.
-/

/-! ## Part A: Python value model and `get_numeric_value` -/

/-- Python runtime values as they occur in the listing apps: `None`,
ints, strings, booleans and string-keyed dicts. -/
inductive PyVal where
  | vNone : PyVal
  | vInt (n : Int) : PyVal
  | vStr (s : String) : PyVal
  | vBool (b : Bool) : PyVal
  | vDict (entries : List (String × PyVal)) : PyVal

/-- Python truthiness (`bool(value)`) restricted to the shapes above;
`falsy v` models `not value`. -/
def PyVal.falsy : PyVal → Bool
  | .vNone => true
  | .vInt n => n == 0
  | .vStr s => s == ""
  | .vBool b => !b
  | .vDict l => l.isEmpty

mutual

/-- Python `repr(value)` for the shapes above (strings are quoted,
dict items are rendered recursively, as CPython does). -/
def PyVal.pyRepr : PyVal → String
  | .vNone => "None"
  | .vInt n => toString n
  | .vStr s => "\x27" ++ s ++ "\x27"
  | .vBool b => if b then "True" else "False"
  | .vDict l => "\x7b" ++ pyReprEntries l ++ "\x7d"

/-- Comma-separated rendering of dict items, as in Python's dict repr. -/
def pyReprEntries : List (String × PyVal) → String
  | [] => ""
  | [(k, v)] => "\x27" ++ k ++ "\x27: " ++ PyVal.pyRepr v
  | (k, v) :: e :: rest =>
      "\x27" ++ k ++ "\x27: " ++ PyVal.pyRepr v ++ ", " ++ pyReprEntries (e :: rest)

end

/-- Python `str(value)`: identical to `repr` except that strings are
returned unquoted. -/
def PyVal.pyStr : PyVal → String
  | .vStr s => s
  | v => PyVal.pyRepr v

/-- Value of a decimal digit string, as Python's `int(...)` computes it
on a run of digit characters. -/
def digitsToNat (ds : List Char) : Nat :=
  ds.foldl (fun a c => a * 10 + (c.toNat - 48)) 0

/-- The first maximal run of digits in a character list; models
`re.search(r"\d+", s)` returning the matched group.  `none` when no
digit occurs. -/
def firstRun : List Char → Option (List Char)
  | [] => Option.none
  | c :: cs =>
      if c.isDigit then some (c :: cs.takeWhile Char.isDigit) else firstRun cs

/-- `get_numeric_value` from `app.py` (identical copy in `app3.py`):
return `None` for falsy input, otherwise search the string form for the
first digit run and convert it with `int`. -/
def get_numeric_value (value : PyVal) : Option Nat :=
  if value.falsy then Option.none
  else
    match firstRun value.pyStr.data with
    | some run => some (digitsToNat run)
    | Option.none => Option.none

/-- A property record: a Python dict with string keys, as loaded from
the JSON data files. -/
abbrev Property := List (String × PyVal)

/-- Python `p.get(k, d)` on a property dict. -/
def pyGet (p : Property) (k : String) (d : PyVal) : PyVal :=
  match p.find? (fun e => e.1 == k) with
  | some e => e.2
  | Option.none => d

/-- Python `v.get(k, d)` on a nested dict value.  The apps only call
this on dict-shaped values; other shapes yield the default here. -/
def PyVal.dget (v : PyVal) (k : String) (d : PyVal) : PyVal :=
  match v with
  | .vDict l =>
      match l.find? (fun e => e.1 == k) with
      | some e => e.2
      | Option.none => d
  | _ => d

/-- Python `v.items()` on a dict value (empty for non-dicts, which the
apps never pass here). -/
def PyVal.items : PyVal → List (String × PyVal)
  | .vDict l => l
  | _ => []

/-- Python `v == 1` on the value shapes above (`True == 1` holds in
Python). -/
def pyEqOne : PyVal → Bool
  | .vInt n => n == 1
  | .vBool b => b
  | _ => false

/-- `normalize_area_name` from `app.py`:
`str(x).replace(" ", "").lower().strip()`. -/
def normalize_area_name (v : PyVal) : String :=
  ((v.pyStr.replace " " "").toLower).trim

/-- `normalize_zone_name` from `app.py` (same body as area names). -/
def normalize_zone_name (v : PyVal) : String :=
  ((v.pyStr.replace " " "").toLower).trim

/-- `normalize_facility_name` from `app.py`:
`str(x).replace(" ", "_").lower().strip()`. -/
def normalize_facility_name (v : PyVal) : String :=
  ((v.pyStr.replace " " "_").toLower).trim

/-- `normalize_amenity_name` from `app.py` (same body as facilities). -/
def normalize_amenity_name (v : PyVal) : String :=
  ((v.pyStr.replace " " "_").toLower).trim

/-- `normalize_room_name` from `app.py` (same body as area names). -/
def normalize_room_name (v : PyVal) : String :=
  ((v.pyStr.replace " " "").toLower).trim

/-- `normalize_property_type_name` from `app.py`:
`str(x).lower().strip()`. -/
def normalize_property_type_name (v : PyVal) : String :=
  v.pyStr.toLower.trim

/-- Python `s.startswith(p)`. -/
def pyStartsWith (s p : String) : Bool :=
  List.isPrefixOf p.data s.data

/-- All maximal digit runs of a character list, in order; models
`re.findall(r"\d+", s)`.  `cur` accumulates the current run in
reverse. -/
def allRunsGo (cur : List Char) : List Char → List (List Char)
  | [] => if cur.isEmpty then [] else [cur.reverse]
  | c :: cs =>
      if c.isDigit then allRunsGo (c :: cur) cs
      else if cur.isEmpty then allRunsGo [] cs
      else cur.reverse :: allRunsGo [] cs

/-- `re.findall(r"\d+", s)` over a character list. -/
def allRuns (l : List Char) : List (List Char) :=
  allRunsGo [] l

/-- The `data_field_map` dict of `filter_properties` in `app.py`,
mapping user-facing field names to JSON record keys. -/
def data_field_map : List (String × String) :=
  [("size", "Size_In_Sqft"), ("carpet", "Carpet_Area_Sqft"),
   ("age", "Property_Age"), ("brokerage", "Brokerage"),
   ("furnishing", "Furnishing_Status"), ("amenities", "Number_Of_Amenities"),
   ("security", "Security_Deposite"), ("rent", "Rent_Price"),
   ("area", "Area"), ("zone", "Zone"), ("bedrooms", "Bedrooms"),
   ("bathrooms", "Bathrooms"), ("balcony", "Balcony"),
   ("floor_no", "Floor_No"), ("total_floors", "Total_floors_In_Building"),
   ("maintenance", "Maintenance_Charge"), ("recommended_for", "Recommended_For"),
   ("water_supply", "Water_Supply_Type"), ("society_type", "Society_Type"),
   ("road_connectivity", "Road_Connectivity"), ("facilities", "Facilities"),
   ("nearby_amenities", "Nearby_Amenities"), ("room_type", "Room_Details"),
   ("property_type", "Room_Details"), ("id", "Property_ID")]

/-- The fields handled by exact lower-cased string comparison in
`filter_properties`. -/
def string_match_fields : List String :=
  ["brokerage", "furnishing", "maintenance", "recommended_for",
   "water_supply", "society_type"]

/-- `filter_properties(user_input, field, data)` from `app.py`.
Branches follow the source order.  In the numeric `below`/`above`
branches with a number-free input, Python raises a `TypeError` inside
the comprehension as soon as one record has a numeric value (the
surrounding `except` then returns `[]`), and completes with `[]` when
none has; both outcomes are the empty list, which is what the embedding
returns.  The `room_type`/`property_type`/facilities branches call dict
methods on values the data files always store as dicts; the embedding
totalizes them via defaults. -/
def filter_properties (user_input : String) (field : String)
    (data : List Property) : List Property :=
  match data_field_map.find? (fun e => e.1 == field) with
  | Option.none => []
  | some entry =>
    let data_field := entry.2
    let normalized_user_input := user_input.toLower.trim
    if string_match_fields.contains field then
      data.filter (fun p =>
        (pyGet p data_field (PyVal.vStr "N/A")).pyStr.toLower == normalized_user_input)
    else if field == "facilities" then
      let user_facilities :=
        (user_input.splitOn ",").map (fun f => normalize_facility_name (PyVal.vStr f))
      data.filter (fun p =>
        (PyVal.items (pyGet p "Facilities" (PyVal.vDict []))).all (fun kv =>
          if kv.1 == "" then true
          else user_facilities.contains (normalize_facility_name (PyVal.vStr kv.1)) &&
            pyEqOne kv.2))
    else if field == "nearby_amenities" then
      let user_amenities :=
        (user_input.splitOn ",").map (fun f => normalize_amenity_name (PyVal.vStr f))
      data.filter (fun p =>
        (PyVal.items (pyGet p "Nearby_Amenities" (PyVal.vDict []))).all (fun kv =>
          if kv.1 == "" then true
          else user_amenities.contains (normalize_amenity_name (PyVal.vStr kv.1)) &&
            pyEqOne kv.2))
    else if field == "room_type" then
      data.filter (fun p =>
        normalize_room_name
          (PyVal.dget (pyGet p "Room_Details" (PyVal.vDict [])) "Rooms" (PyVal.vStr "")) ==
          normalized_user_input)
    else if field == "property_type" then
      data.filter (fun p =>
        normalize_property_type_name
          (PyVal.dget (pyGet p "Room_Details" (PyVal.vDict [])) "Type" (PyVal.vStr "")) ==
          normalized_user_input)
    else if field == "area" then
      data.filter (fun p =>
        normalize_area_name (pyGet p "Area" (PyVal.vStr "N/A")) ==
          normalize_area_name (PyVal.vStr user_input))
    else if field == "zone" then
      data.filter (fun p =>
        normalize_zone_name (pyGet p "Zone" (PyVal.vStr "N/A")) ==
          normalize_zone_name (PyVal.vStr user_input))
    else if field == "id" then
      let property_ids := (user_input.splitOn ",").map (fun s => s.trim.toLower)
      data.filter (fun p =>
        property_ids.contains (pyGet p "Property_ID" (PyVal.vStr "")).pyStr.toLower)
    else
      let val := get_numeric_value (PyVal.vStr user_input)
      if pyStartsWith user_input "below" then
        match val with
        | some v => data.filter (fun p =>
            match get_numeric_value (pyGet p data_field PyVal.vNone) with
            | some x => decide (x < v)
            | Option.none => false)
        | Option.none => []
      else if pyStartsWith user_input "above" then
        match val with
        | some v => data.filter (fun p =>
            match get_numeric_value (pyGet p data_field PyVal.vNone) with
            | some x => decide (v < x)
            | Option.none => false)
        | Option.none => []
      else if pyStartsWith user_input "between" then
        match (allRuns user_input.data).map digitsToNat with
        | [low, high] => data.filter (fun p =>
            match get_numeric_value (pyGet p data_field PyVal.vNone) with
            | some x => decide (low ≤ x ∧ x ≤ high)
            | Option.none => false)
        | _ => []
      else
        data.filter (fun p =>
          get_numeric_value (pyGet p data_field PyVal.vNone) == val)

/-- A field reaches the numeric comparison branch of
`filter_properties`: it is in the field map and is none of the
specially handled fields. -/
def numeric_branch_field (field : String) : Bool :=
  (data_field_map.find? (fun e => e.1 == field)).isSome &&
  !string_match_fields.contains field &&
  field != "facilities" && field != "nearby_amenities" &&
  field != "room_type" && field != "property_type" &&
  field != "area" && field != "zone" && field != "id"

/-- The JSON record key a user-facing field name maps to. -/
def mapped_field (field : String) : String :=
  ((data_field_map.find? (fun e => e.1 == field)).map (fun e => e.2)).getD ""

/-! ## Part B: duplicate-image check from `app8.py` -/

/-- A perceptual hash: the flattened bit matrix computed by
`imagehash.phash`. -/
abbrev PHash := List Bool

/-- The `imagehash` difference operator `h1 - h2`: the Hamming distance
of the two flattened bit vectors. -/
def hashDist (a b : PHash) : Nat :=
  (a.zip b).countP (fun p => p.1 != p.2)

/-- The scan loop of `check_duplicate` in `app8.py`: walk the existing
hashes and return `(True, distance)` at the first hash closer than the
threshold, else `(False, 0)`. -/
def findClose (h : PHash) (threshold : Nat) : List PHash → Bool × Nat
  | [] => (false, 0)
  | e :: rest =>
      if hashDist h e < threshold then (true, hashDist h e)
      else findClose h threshold rest

/-- `check_duplicate(image, existing_hashes, threshold=5)` from
`app8.py`.  `calculate_phash` wraps the external `imagehash.phash` call
in try/except and yields `None` on failure; that outcome is the
`img_hash` argument here (`none` models the failure path). -/
def check_duplicate (img_hash : Option PHash) (existing_hashes : List PHash)
    (threshold : Nat) : Bool × Nat :=
  match img_hash with
  | Option.none => (false, 0)
  | some h => findClose h threshold existing_hashes

/-! ## Part C: the rent valuation pipeline, modelled from the spec

The valuation pipeline of spec §4 (feature aligner, rule-based
validator, amenity uplift calculator, valuation orchestration) is not
among the provided source files; every definition in this part is
modelled from the design document. -/

/-- Modelled from the spec: the §4 valuation pipeline implementation is
missing from the provided sources.  A raw attribute value (spec §3):
a number, a boolean flag, or a category label. -/
inductive AttrVal where
  | num (q : ℚ) : AttrVal
  | flag (b : Bool) : AttrVal
  | cat (s : String) : AttrVal
deriving DecidableEq

/-- Modelled from the spec: `RawAttributes` (spec §3), the per-request
mapping from attribute name to value. -/
abbrev RawAttributes := List (String × AttrVal)

/-- Modelled from the spec: `ColumnSchema` (spec §3), the ordered
training-time column list. -/
abbrev ColumnSchema := List String

/-- First value bound to a key in a raw attribute map. -/
def lookupVal (raw : RawAttributes) (k : String) : Option AttrVal :=
  (raw.find? (fun e => e.1 == k)).map (fun e => e.2)

/-- Numeric attribute lookup; `none` when absent or not numeric. -/
def numLookup (raw : RawAttributes) (k : String) : Option ℚ :=
  match lookupVal raw k with
  | some (.num q) => some q
  | _ => Option.none

/-- Numeric attribute with the zero default of spec §4.2. -/
def getNum (raw : RawAttributes) (k : String) : ℚ :=
  (numLookup raw k).getD 0

/-- Category-label attribute with the empty-string default of §4.2. -/
def getStr (raw : RawAttributes) (k : String) : String :=
  match lookupVal raw k with
  | some (.cat s) => s
  | _ => ""

/-- Boolean flag attribute with the false default. -/
def getFlag (raw : RawAttributes) (k : String) : Bool :=
  match lookupVal raw k with
  | some (.flag b) => b
  | _ => false

/-- Modelled from the spec (§4.1): schema column `c` is an indicator
column produced by categorical expansion of `raw`, i.e.
`c = attribute ++ "_" ++ category` for a categorical attribute. -/
def catIndicator (raw : RawAttributes) (c : String) : Bool :=
  raw.any (fun e =>
    match e.2 with
    | .cat v => c == e.1 ++ "_" ++ v
    | _ => false)

/-- Modelled from the spec (§4.1): one aligned column — 1 for a matched
categorical indicator, the raw number for a direct numeric copy, the
zero default otherwise. -/
def alignCell (raw : RawAttributes) (c : String) : ℚ :=
  if catIndicator raw c then 1
  else
    match numLookup raw c with
    | some q => q
    | Option.none => 0

/-- Modelled from the spec (§4.1): `align(raw, schema)` produces the
feature vector in schema order. -/
def align (raw : RawAttributes) (schema : ColumnSchema) : List ℚ :=
  schema.map (alignCell raw)

/-- Modelled from the spec (§3, §4.2): one per-category rule-table
entry — bounds for parking slots, power backup and water supply, the
size guideline interval, the business-rule requirements, and the
parking outlier limit. -/
structure CategoryRule where
  parkingMin : ℚ
  parkingMax : ℚ
  powerMin : ℚ
  powerMax : ℚ
  waterMin : ℚ
  waterMax : ℚ
  sizeMin : ℚ
  sizeMax : ℚ
  requiresWater : Bool
  requiresPower : Bool
  parkingOutlierLimit : ℚ
deriving DecidableEq

/-- Modelled from the spec (§3): the static `RuleTable` — per-category
rules plus per-amenity percentage increments. -/
structure RuleTable where
  categories : List (String × CategoryRule)
  amenities : List (String × ℚ)
deriving DecidableEq

/-- The rule-table entry for a category name, if any. -/
def lookupCat (rules : RuleTable) (c : String) : Option CategoryRule :=
  (rules.categories.find? (fun e => e.1 == c)).map (fun e => e.2)

/-- Modelled from the spec (§4.2): one validation warning, tagged by
the rule that produced it; range-style warnings embed the computed
expected range. -/
inductive Warning where
  | areaConsistency (lo hi : ℚ) : Warning
  | boundViolation (field : String) (lo hi : ℚ) : Warning
  | sizeGuideline (lo hi : ℚ) : Warning
  | floorInconsistency : Warning
  | businessRule (rule : String) : Warning
  | parkingOutlier (kind : String) : Warning
deriving DecidableEq

/-- Modelled from the spec (§4.2 check 1): the expected window for a
declared area type, as a fraction of the total size — built-up 80–90%,
carpet 65–80%; other declared types have no window. -/
def expectedAreaRange (ty : String) (total : ℚ) : Option (ℚ × ℚ) :=
  if ty == "Built-up Area" then some (total * (80 / 100), total * (90 / 100))
  else if ty == "Carpet Area" then some (total * (65 / 100), total * (80 / 100))
  else Option.none

/-- Modelled from the spec (§4.2 check 1): a declared non-total area
outside its expected window, or one not strictly below the total,
yields one warning embedding the computed expected range. -/
def areaWarnings (raw : RawAttributes) : List Warning :=
  match expectedAreaRange (getStr raw "area_type") (getNum raw "size") with
  | some (lo, hi) =>
      let v := getNum raw "area_value"
      if v < lo ∨ hi < v ∨ getNum raw "size" ≤ v then
        [Warning.areaConsistency lo hi]
      else []
  | Option.none => []

/-- 1 or 0 for a boolean flag, for comparison against numeric bounds. -/
def flagQ (b : Bool) : ℚ := if b then 1 else 0

/-- Modelled from the spec (§4.2 check 2): per-category bounds on
parking slots, power backup and water supply; each violated bound
yields one warning. -/
def boundWarnings (rules : RuleTable) (raw : RawAttributes) : List Warning :=
  match lookupCat rules (getStr raw "category") with
  | some cr =>
      (if getNum raw "parking_slots" < cr.parkingMin ∨
          cr.parkingMax < getNum raw "parking_slots" then
        [Warning.boundViolation "parking_slots" cr.parkingMin cr.parkingMax]
      else []) ++
      (if flagQ (getFlag raw "power_backup") < cr.powerMin ∨
          cr.powerMax < flagQ (getFlag raw "power_backup") then
        [Warning.boundViolation "power_backup" cr.powerMin cr.powerMax]
      else []) ++
      (if flagQ (getFlag raw "water_supply") < cr.waterMin ∨
          cr.waterMax < flagQ (getFlag raw "water_supply") then
        [Warning.boundViolation "water_supply" cr.waterMin cr.waterMax]
      else [])
  | Option.none => []

/-- Modelled from the spec (§4.2 check 3): the size guideline. -/
def sizeWarnings (rules : RuleTable) (raw : RawAttributes) : List Warning :=
  match lookupCat rules (getStr raw "category") with
  | some cr =>
      if getNum raw "size" < cr.sizeMin ∨ cr.sizeMax < getNum raw "size" then
        [Warning.sizeGuideline cr.sizeMin cr.sizeMax]
      else []
  | Option.none => []

/-- Modelled from the spec (§4.2 check 4): the floor number must not
exceed the building's total floors. -/
def floorWarnings (raw : RawAttributes) : List Warning :=
  if getNum raw "total_floors" < getNum raw "floor" then
    [Warning.floorInconsistency]
  else []

/-- Modelled from the spec (§4.2 check 5): category business rules —
a required water supply or power backup that is missing, and the
IT-services power rule of §8. -/
def businessWarnings (rules : RuleTable) (raw : RawAttributes) : List Warning :=
  (match lookupCat rules (getStr raw "category") with
  | some cr =>
      (if cr.requiresWater && !getFlag raw "water_supply" then
        [Warning.businessRule "water_supply"]
      else []) ++
      (if cr.requiresPower && !getFlag raw "power_backup" then
        [Warning.businessRule "power_backup"]
      else [])
  | Option.none => []) ++
  (if getStr raw "business_type" == "IT Services" && !getFlag raw "power_backup" then
    [Warning.businessRule "it_services_power_backup"]
  else [])

/-- Modelled from the spec (§4.2 check 6): outlier heuristics — an
unusually high parking count for the category, or for the declared
size (more than one slot per 100 sqft), up to two warnings. -/
def outlierWarnings (rules : RuleTable) (raw : RawAttributes) : List Warning :=
  (match lookupCat rules (getStr raw "category") with
  | some cr =>
      if cr.parkingOutlierLimit < getNum raw "parking_slots" then
        [Warning.parkingOutlier "category"]
      else []
  | Option.none => []) ++
  (if getNum raw "size" < getNum raw "parking_slots" * 100 then
    [Warning.parkingOutlier "size"]
  else [])

/-- Modelled from the spec (§4.2): `validate(raw)` runs the six checks
in their fixed order and concatenates the warnings. -/
def validate (rules : RuleTable) (raw : RawAttributes) : List Warning :=
  areaWarnings raw ++ boundWarnings rules raw ++ sizeWarnings rules raw ++
    floorWarnings raw ++ businessWarnings rules raw ++ outlierWarnings rules raw

/-- Modelled from the spec (§4.3): `uplift(raw, table)` sums the fixed
percentage of every amenity whose flag is set in `raw`; absent
amenities contribute zero. -/
def uplift (raw : RawAttributes) (table : RuleTable) : ℚ :=
  (table.amenities.map (fun e => if getFlag raw e.1 then e.2 else 0)).sum

/-- Modelled from the spec (§6): the external Artifact Provider —
`transform` (the fitted scaler; `none` models rejection), `predict`
(the model; `none` models a raised exception), and `expm1`, the
inverse of the log1p target transform, abstracted as a function in the
rational model. -/
structure ArtifactProvider where
  transform : List ℚ → Option (List ℚ)
  predict : List ℚ → Option ℚ
  expm1 : ℚ → ℚ

/-- Modelled from the spec (§4.1): the numeric sub-vector handed to the
scaler — the direct numeric copies, in schema order. -/
def numericCols (raw : RawAttributes) (schema : ColumnSchema) : List ℚ :=
  schema.filterMap (numLookup raw)

/-- Modelled from the spec (§4.1): reassemble the full vector in schema
order, taking scaled values for numeric columns and unscaled indicator
or zero defaults elsewhere. -/
def assemble (raw : RawAttributes) : ColumnSchema → List ℚ → List ℚ
  | [], _ => []
  | c :: cs, scaled =>
      if catIndicator raw c then 1 :: assemble raw cs scaled
      else
        match numLookup raw c, scaled with
        | some _, s :: rest => s :: assemble raw cs rest
        | some q, [] => q :: assemble raw cs []
        | Option.none, _ => 0 :: assemble raw cs scaled

/-- Modelled from the spec (§4.4 step 1): align, scale, predict, and
invert the log1p transform; `none` on scaler rejection, on a model
raise, or on a negative recovered rent. -/
def step1 (prov : ArtifactProvider) (raw : RawAttributes)
    (schema : ColumnSchema) : Option ℚ :=
  match prov.transform (numericCols raw schema) with
  | some scaled =>
      match prov.predict (assemble raw schema scaled) with
      | some y => if prov.expm1 y < 0 then Option.none else some (prov.expm1 y)
      | Option.none => Option.none
  | Option.none => Option.none

/-- Modelled from the spec (§3): `ValuationResult`. -/
structure ValuationResult where
  base_rent : Option ℚ
  amenity_uplift_pct : ℚ
  warnings : List Warning
  adjusted_rent : Option ℚ
  fair_range : Option (ℚ × ℚ)
  projection : List (Nat × ℚ)
deriving DecidableEq

/-- Modelled from the spec (§4.4 step 7): the projection series —
starting from the adjusted rent, compound by the growth factor once
per year, storing every computed year. -/
def projectionFrom (value growthFactor : ℚ) (year : Nat) : Nat → List (Nat × ℚ)
  | 0 => []
  | n + 1 =>
      (year + 1, value * growthFactor) ::
        projectionFrom (value * growthFactor) growthFactor (year + 1) n

/-- Modelled from the spec (§4.4): the valuation pipeline `valuate`.
The warning decay factor is the fixed 0.8 of step 5 and the fair-range
tolerance is the ±25% of step 6. -/
def valuate (prov : ArtifactProvider) (rules : RuleTable)
    (raw : RawAttributes) (schema : ColumnSchema)
    (projectionYears : Nat) (annualGrowthPct : ℚ) : ValuationResult :=
  let u := uplift raw rules
  let ws := validate rules raw
  match step1 prov raw schema with
  | Option.none => ⟨Option.none, u, ws, Option.none, Option.none, []⟩
  | some b =>
      let adjusted := b * (1 + u / 100) * (4 / 5) ^ ws.length
      ⟨some b, u, ws, some adjusted,
        some (adjusted * (1 - 1 / 4), adjusted * (1 + 1 / 4)),
        projectionFrom adjusted (1 + annualGrowthPct / 100) 0 projectionYears⟩

/-- The second components of consecutive series entries strictly
increase. -/
def chainLtVals : List (Nat × ℚ) → Bool
  | x :: y :: rest => decide (x.2 < y.2) && chainLtVals (y :: rest)
  | _ => true

/-- The first components (years) of consecutive series entries strictly
increase. -/
def chainLtYears : List (Nat × ℚ) → Bool
  | x :: y :: rest => decide (x.1 < y.1) && chainLtYears (y :: rest)
  | _ => true

/-- Every series value equals `a`. -/
def allValEq (a : ℚ) (l : List (Nat × ℚ)) : Bool :=
  l.all (fun e => e.2 == a)

/-- The warning is an area-consistency warning. -/
def isAreaW : Warning → Bool
  | .areaConsistency _ _ => true
  | _ => false

/-! ## Concrete data used by the witness theorems -/

/-- Concrete data for the C9 witness. -/
def propW1 : Property :=
  [("Property_ID", PyVal.vStr "P1"), ("Rent_Price", PyVal.vStr "15000")]

/-- Concrete data for the C9 witness. -/
def propW2 : Property :=
  [("Property_ID", PyVal.vStr "P2"), ("Rent_Price", PyVal.vInt 30000)]

/-- Concrete data for the C9 witness. -/
def propW3 : Property :=
  [("Property_ID", PyVal.vStr "P3")]

/-- Concrete hash for the C10 witness. -/
def hashA : PHash := [true, false, true, false]

/-- Concrete hash for the C10 witness (distance 1 from `hashA`). -/
def hashB : PHash := [true, false, true, true]

/-- Concrete hash for the C10 witness (distance 4 from `hashA`). -/
def hashC : PHash := [false, true, false, true]

/-- A concrete artifact provider whose scaler is the identity and whose
model always recovers a rent of 100. -/
def provW : ArtifactProvider :=
  ⟨fun v => some v, fun _ => some 100, fun y => y⟩

/-- A concrete artifact provider whose scaler rejects every vector. -/
def provFailW : ArtifactProvider :=
  ⟨fun _ => Option.none, fun _ => some 0, fun y => y⟩

/-- A concrete artifact provider whose model always recovers a rent of
exactly 0 (a legal non-negative value per spec §4.4 step 1). -/
def provZeroW : ArtifactProvider :=
  ⟨fun v => some v, fun _ => some 0, fun y => y⟩

/-- A concrete rule table: no category rules, two amenities. -/
def rulesW : RuleTable :=
  ⟨[], [("swimming_pool", 5), ("gym", 3)]⟩

/-- A concrete raw attribute map with one amenity enabled. -/
def rawW : RawAttributes :=
  [("size", AttrVal.num 1000), ("swimming_pool", AttrVal.flag true)]

/-- A concrete one-column schema. -/
def schemaW : ColumnSchema := ["size"]

/-- A concrete schema with a column `rawW` cannot satisfy. -/
def schemaW2 : ColumnSchema := ["size", "missing_col"]

/-- Raw attributes for the C5 witness: amenity selection A. -/
def rawAW : RawAttributes := [("swimming_pool", AttrVal.flag true)]

/-- Raw attributes for the C5 witness: amenity selection B. -/
def rawBW : RawAttributes := [("gym", AttrVal.flag true)]

/-- Raw attributes for the C5 witness: selections A and B together. -/
def rawABW : RawAttributes :=
  [("swimming_pool", AttrVal.flag true), ("gym", AttrVal.flag true)]

/-- Raw attributes for the C7 witness: total size 1000, declared
built-up area 750. -/
def rawC7a : RawAttributes :=
  [("size", AttrVal.num 1000), ("area_type", AttrVal.cat "Built-up Area"),
   ("area_value", AttrVal.num 750)]

/-- Raw attributes for the C7 witness: total size 1000, declared
built-up area 850. -/
def rawC7b : RawAttributes :=
  [("size", AttrVal.num 1000), ("area_type", AttrVal.cat "Built-up Area"),
   ("area_value", AttrVal.num 850)]

/-! ## Theorems -/

theorem firstRun_none_iff (l : List Char) :
    firstRun l = Option.none ↔ ∀ c ∈ l, c.isDigit = false := by
  induction l with
  | nil => simp [firstRun]
  | cons a l ih =>
    by_cases ha : a.isDigit
    · simp [firstRun, ha]
    · simp [firstRun, ha, ih]

theorem mem_takeWhile_digit {l : List Char} {c : Char}
    (h : c ∈ l.takeWhile Char.isDigit) : c.isDigit = true := by
  induction l with
  | nil => simp [List.takeWhile] at h
  | cons a l ih =>
    by_cases ha : a.isDigit
    · rw [List.takeWhile_cons, if_pos ha] at h
      rcases List.mem_cons.mp h with hc | hc
      · exact hc ▸ ha
      · exact ih hc
    · rw [List.takeWhile_cons, if_neg ha] at h
      simp at h

theorem head_dropWhile_digit (l : List Char) {c : Char}
    (h : (l.dropWhile Char.isDigit).head? = some c) : c.isDigit = false := by
  induction l with
  | nil => simp [List.dropWhile] at h
  | cons a l ih =>
    by_cases ha : a.isDigit
    · rw [List.dropWhile_cons, if_pos ha] at h
      exact ih h
    · rw [List.dropWhile_cons, if_neg ha] at h
      simp at h
      rw [← h]
      simpa using ha

theorem firstRun_decomp :
    ∀ (l run : List Char), firstRun l = some run →
      ∃ pre post, l = pre ++ run ++ post ∧
        (∀ c ∈ pre, c.isDigit = false) ∧ run ≠ [] ∧
        (∀ c ∈ run, c.isDigit = true) ∧
        (∀ c, post.head? = some c → c.isDigit = false) := by
  intro l
  induction l with
  | nil => intro run h; simp [firstRun] at h
  | cons a l ih =>
    intro run h
    by_cases ha : a.isDigit
    · rw [firstRun, if_pos ha] at h
      injection h with h
      refine ⟨[], l.dropWhile Char.isDigit, ?_, by simp, by simp [← h], ?_, ?_⟩
      · rw [← h]
        simp [List.takeWhile_append_dropWhile]
      · intro c hc
        rw [← h] at hc
        rcases List.mem_cons.mp hc with hc | hc
        · exact hc ▸ ha
        · exact mem_takeWhile_digit hc
      · intro c hc
        exact head_dropWhile_digit l hc
    · rw [firstRun, if_neg ha] at h
      obtain ⟨pre, post, hl, hpre, hne, hrun, hpost⟩ := ih run h
      refine ⟨a :: pre, post, by simp [hl], ?_, hne, hrun, hpost⟩
      intro c hc
      rcases List.mem_cons.mp hc with hc | hc
      · rw [hc]; simpa using ha
      · exact hpre c hc

/-- Claim C8: `get_numeric_value` is total and extracts the first digit
run: it returns `none` exactly when the value is falsy or its string
form has no digit, and otherwise the integer formed by the first
maximal run of digits of the string form. -/
theorem C8_get_numeric_value (v : PyVal) :
    (get_numeric_value v = Option.none ↔
      (v.falsy = true ∨ ∀ c ∈ v.pyStr.data, c.isDigit = false)) ∧
    (∀ n, get_numeric_value v = some n →
      ∃ pre run post, v.pyStr.data = pre ++ run ++ post ∧
        (∀ c ∈ pre, c.isDigit = false) ∧ run ≠ [] ∧
        (∀ c ∈ run, c.isDigit = true) ∧
        (∀ c, post.head? = some c → c.isDigit = false) ∧
        n = digitsToNat run) := by
  unfold get_numeric_value
  by_cases hf : v.falsy
  · simp [hf]
  · cases hr : firstRun v.pyStr.data with
    | none =>
      simp only [hf, if_false, hr, Bool.false_eq_true]
      constructor
      · exact iff_of_true (by simp) (Or.inr ((firstRun_none_iff _).mp hr))
      · intro n h; exact absurd h (by simp)
    | some run =>
      simp only [hf, if_false, hr, Bool.false_eq_true]
      constructor
      · constructor
        · intro h; exact absurd h (by simp)
        · rintro (h | h)
          · exact absurd h (by simp [hf])
          · rw [← firstRun_none_iff] at h
            rw [h] at hr; exact absurd hr (by simp)
      · intro n h
        injection h with h
        obtain ⟨pre, post, hl, hpre, hne, hrun, hpost⟩ :=
          firstRun_decomp _ run hr
        exact ⟨pre, run, post, hl, hpre, hne, hrun, hpost, h.symm⟩

/-- Witness for C8: on the string `"800 sqft"` the function returns
`800`, and the characterization theorem applies there. -/
theorem C8_witness :
    get_numeric_value (PyVal.vStr "800 sqft") = some 800 ∧
    (∃ pre run post, (PyVal.vStr "800 sqft").pyStr.data = pre ++ run ++ post ∧
      (∀ c ∈ pre, c.isDigit = false) ∧ run ≠ [] ∧
      (∀ c ∈ run, c.isDigit = true) ∧
      (∀ c, post.head? = some c → c.isDigit = false) ∧
      800 = digitsToNat run) :=
  ⟨rfl, (C8_get_numeric_value (PyVal.vStr "800 sqft")).2 800 rfl⟩

theorem listPrefix_between_below (l : List Char)
    (h : List.isPrefixOf ['b', 'e', 't', 'w', 'e', 'e', 'n'] l = true) :
    List.isPrefixOf ['b', 'e', 'l', 'o', 'w'] l = false := by
  rcases l with _ | ⟨c0, _ | ⟨c1, _ | ⟨c2, rest⟩⟩⟩
  · simp [List.isPrefixOf] at h
  · simp [List.isPrefixOf] at h
  · simp [List.isPrefixOf] at h
  · apply Bool.eq_false_iff.mpr
    intro hc
    simp only [List.isPrefixOf, Bool.and_eq_true, beq_iff_eq] at h hc
    rw [← h.2.2.1] at hc
    exact absurd hc.2.2.1 (by decide)

theorem listPrefix_between_above (l : List Char)
    (h : List.isPrefixOf ['b', 'e', 't', 'w', 'e', 'e', 'n'] l = true) :
    List.isPrefixOf ['a', 'b', 'o', 'v', 'e'] l = false := by
  rcases l with _ | ⟨c0, rest⟩
  · simp [List.isPrefixOf] at h
  · apply Bool.eq_false_iff.mpr
    intro hc
    simp only [List.isPrefixOf, Bool.and_eq_true, beq_iff_eq] at h hc
    rw [← h.1] at hc
    exact absurd hc.1 (by decide)

theorem between_not_below {s : String} (h : pyStartsWith s "between" = true) :
    pyStartsWith s "below" = false :=
  listPrefix_between_below s.data h

theorem between_not_above {s : String} (h : pyStartsWith s "between" = true) :
    pyStartsWith s "above" = false :=
  listPrefix_between_above s.data h

/-- Claim C9: for every data list, `filter_properties` returns `[]`
when the field is not in the field map; and for a numeric-branch field,
an input starting with `"between"` that contains exactly two integers
`low` and `high` selects exactly the records whose mapped field has a
numeric value `v` with `low ≤ v ≤ high`, dropping records whose field
yields no numeric value. -/
theorem C9_filter_between (user_input field : String) (data : List Property) :
    ((data_field_map.find? (fun e => e.1 == field)) = Option.none →
      filter_properties user_input field data = []) ∧
    (∀ low high, numeric_branch_field field = true →
      pyStartsWith user_input "between" = true →
      (allRuns user_input.data).map digitsToNat = [low, high] →
      filter_properties user_input field data =
        data.filter (fun p =>
          match get_numeric_value (pyGet p (mapped_field field) PyVal.vNone) with
          | some x => decide (low ≤ x ∧ x ≤ high)
          | Option.none => false)) := by
  constructor
  · intro h
    simp [filter_properties, h]
  · intro low high hn hb hruns
    obtain ⟨e, hfind⟩ := Option.isSome_iff_exists.mp (by
      simp only [numeric_branch_field, Bool.and_eq_true] at hn
      exact hn.1.1.1.1.1.1.1.1)
    simp only [numeric_branch_field, Bool.and_eq_true, bne_iff_ne,
      Bool.not_eq_true'] at hn
    obtain ⟨⟨⟨⟨⟨⟨⟨⟨-, hsm⟩, hfac⟩, hnear⟩, hroom⟩, hprop⟩, harea⟩, hzone⟩, hid⟩ := hn
    have hmf : mapped_field field = e.2 := by
      simp [mapped_field, hfind]
    unfold filter_properties
    rw [hfind]
    simp only [beq_iff_eq, hsm, hfac, hnear, hroom, hprop, harea, hzone, hid,
      between_not_below hb, between_not_above hb, hb, hruns, hmf,
      Bool.false_eq_true, if_false, if_true]

/-- Witness for C9: the `rent` field with input
`"between 10000 and 20000"` on three concrete records. -/
theorem C9_witness :
    numeric_branch_field "rent" = true ∧
    pyStartsWith "between 10000 and 20000" "between" = true ∧
    (allRuns ("between 10000 and 20000").data).map digitsToNat = [10000, 20000] ∧
    filter_properties "between 10000 and 20000" "rent" [propW1, propW2, propW3] =
      [propW1, propW2, propW3].filter (fun p =>
        match get_numeric_value (pyGet p (mapped_field "rent") PyVal.vNone) with
        | some x => decide (10000 ≤ x ∧ x ≤ 20000)
        | Option.none => false) :=
  ⟨rfl, rfl, rfl,
    (C9_filter_between "between 10000 and 20000" "rent" [propW1, propW2, propW3]).2
      10000 20000 rfl rfl rfl⟩

theorem findClose_spec (h : PHash) (t : Nat) (l : List PHash) :
    ((findClose h t l).1 = true ↔ ∃ e ∈ l, hashDist h e < t) ∧
    ((findClose h t l).1 = true →
      ∃ e ∈ l, hashDist h e = (findClose h t l).2 ∧ (findClose h t l).2 < t) ∧
    ((findClose h t l).1 = false → findClose h t l = (false, 0)) := by
  induction l with
  | nil => simp [findClose]
  | cons e rest ih =>
    by_cases he : hashDist h e < t
    · refine ⟨?_, ?_, ?_⟩
      · constructor
        · intro _
          exact ⟨e, List.mem_cons_self e rest, he⟩
        · intro _
          simp [findClose, he]
      · intro _
        simp only [findClose, if_pos he]
        exact ⟨e, List.mem_cons_self e rest, rfl, he⟩
      · simp only [findClose, if_pos he]
        intro hc
        exact absurd hc (by simp)
    · have hre : findClose h t (e :: rest) = findClose h t rest := by
        simp [findClose, he]
      refine ⟨?_, ?_, ?_⟩
      · rw [hre, ih.1]
        constructor
        · rintro ⟨x, hx, hd⟩
          exact ⟨x, List.mem_cons_of_mem _ hx, hd⟩
        · rintro ⟨x, hx, hd⟩
          rcases List.mem_cons.mp hx with hxe | hx
          · subst hxe; exact absurd hd he
          · exact ⟨x, hx, hd⟩
      · intro h1
        rw [hre] at h1 ⊢
        obtain ⟨x, hx, hd, hlt⟩ := ih.2.1 h1
        exact ⟨x, List.mem_cons_of_mem _ hx, hd, hlt⟩
      · intro h1
        rw [hre] at h1 ⊢
        exact ih.2.2 h1

/-- Claim C10: `check_duplicate` flags a duplicate exactly when some
existing hash lies at perceptual-hash distance strictly below the
threshold from the image's hash; the reported distance is the distance
to such a hash; in every other case, including an uncomputable hash or
an empty hash set, it returns `(false, 0)` (and, being a total
function, never raises). -/
theorem C10_check_duplicate (img_hash : Option PHash) (existing : List PHash)
    (threshold : Nat) :
    ((check_duplicate img_hash existing threshold).1 = true ↔
      ∃ h e, img_hash = some h ∧ e ∈ existing ∧ hashDist h e < threshold) ∧
    (∀ h, img_hash = some h →
      (check_duplicate img_hash existing threshold).1 = true →
      ∃ e ∈ existing,
        hashDist h e = (check_duplicate img_hash existing threshold).2 ∧
        (check_duplicate img_hash existing threshold).2 < threshold) ∧
    ((check_duplicate img_hash existing threshold).1 = false →
      check_duplicate img_hash existing threshold = (false, 0)) := by
  cases img_hash with
  | none =>
    refine ⟨?_, ?_, ?_⟩
    · simp [check_duplicate]
    · intro h hc
      exact absurd hc (by simp)
    · intro _
      rfl
  | some h =>
    have hs := findClose_spec h threshold existing
    refine ⟨?_, ?_, ?_⟩
    · rw [show check_duplicate (some h) existing threshold =
        findClose h threshold existing from rfl, hs.1]
      constructor
      · rintro ⟨e, he, hd⟩
        exact ⟨h, e, rfl, he, hd⟩
      · rintro ⟨h', e, heq, he, hd⟩
        injection heq with heq
        subst heq
        exact ⟨e, he, hd⟩
    · intro h' heq h1
      injection heq with heq
      subst heq
      exact hs.2.1 h1
    · intro h1
      exact hs.2.2 h1

/-- Witness for C10: with the default threshold 5 and an existing set
containing a hash at distance 4, the image is flagged as a duplicate at
that distance. -/
theorem C10_witness :
    check_duplicate (some hashA) [hashC, hashB] 5 = (true, 4) ∧
    (∃ e ∈ [hashC, hashB],
      hashDist hashA e = (check_duplicate (some hashA) [hashC, hashB] 5).2 ∧
      (check_duplicate (some hashA) [hashC, hashB] 5).2 < 5) :=
  ⟨rfl, (C10_check_duplicate (some hashA) [hashC, hashB] 5).2.1 hashA rfl rfl⟩

/-- Claim C1: whenever `valuate` returns a non-absent base rent, the
adjusted rent equals the base rent with the amenity uplift applied
first and then one multiplicative 0.8 decay per warning. -/
theorem C1_warning_penalty (prov : ArtifactProvider) (rules : RuleTable)
    (raw : RawAttributes) (schema : ColumnSchema) (Y : Nat) (g : ℚ) (b : ℚ)
    (h : (valuate prov rules raw schema Y g).base_rent = some b) :
    (valuate prov rules raw schema Y g).adjusted_rent =
      some (b * (1 + (valuate prov rules raw schema Y g).amenity_uplift_pct / 100) *
        (4 / 5) ^ (valuate prov rules raw schema Y g).warnings.length) := by
  unfold valuate at h ⊢
  cases hs : step1 prov raw schema with
  | none =>
    rw [hs] at h
    simp at h
  | some b' =>
    simp only [hs] at h ⊢
    obtain rfl : b' = b := Option.some.inj h
    rfl

/-- Witness for C1: a concrete provider recovering base rent 100 with
one 5% amenity enabled and no warnings. -/
theorem C1_witness :
    (valuate provW rulesW rawW schemaW 3 5).base_rent = some 100 ∧
    (valuate provW rulesW rawW schemaW 3 5).adjusted_rent =
      some (100 * (1 + (valuate provW rulesW rawW schemaW 3 5).amenity_uplift_pct / 100) *
        (4 / 5) ^ (valuate provW rulesW rawW schemaW 3 5).warnings.length) :=
  ⟨by decide, C1_warning_penalty provW rulesW rawW schemaW 3 5 100 (by decide)⟩

/-- Claim C2: when alignment or inference fails — scaler rejection,
model raise, or negative recovered rent — `valuate` returns a result
with absent `base_rent`, `adjusted_rent` and `fair_range` while
`warnings` and `amenity_uplift_pct` are still computed; the function is
total, so no exception escapes. -/
theorem C2_failure_semantics (prov : ArtifactProvider) (rules : RuleTable)
    (raw : RawAttributes) (schema : ColumnSchema) (Y : Nat) (g : ℚ)
    (h : prov.transform (numericCols raw schema) = Option.none ∨
      (∃ scaled, prov.transform (numericCols raw schema) = some scaled ∧
        (prov.predict (assemble raw schema scaled) = Option.none ∨
         ∃ y, prov.predict (assemble raw schema scaled) = some y ∧
           prov.expm1 y < 0))) :
    valuate prov rules raw schema Y g =
      ⟨Option.none, uplift raw rules, validate rules raw,
        Option.none, Option.none, []⟩ := by
  have hs : step1 prov raw schema = Option.none := by
    unfold step1
    rcases h with h | ⟨scaled, hsc, h⟩
    · rw [h]
    · simp only [hsc]
      rcases h with h | ⟨y, hy, hneg⟩
      · simp only [h]
      · simp only [hy]
        rw [if_pos hneg]
  unfold valuate
  rw [hs]

/-- Witness for C2: a provider whose scaler rejects every vector. -/
theorem C2_witness :
    provFailW.transform (numericCols rawW schemaW) = Option.none ∧
    valuate provFailW rulesW rawW schemaW 2 5 =
      ⟨Option.none, uplift rawW rulesW, validate rulesW rawW,
        Option.none, Option.none, []⟩ :=
  ⟨rfl, C2_failure_semantics provFailW rulesW rawW schemaW 2 5 (Or.inl rfl)⟩

/-- Claim C6: `valuate` is deterministic — two results computed from
identical inputs are identical (the model is a pure function with no
hidden state or randomness). -/
theorem C6_determinism (prov : ArtifactProvider) (rules : RuleTable)
    (raw : RawAttributes) (schema : ColumnSchema) (Y : Nat) (g : ℚ)
    (r1 r2 : ValuationResult)
    (h1 : r1 = valuate prov rules raw schema Y g)
    (h2 : r2 = valuate prov rules raw schema Y g) : r1 = r2 := by
  rw [h1, h2]

/-- Witness for C6: two calls on the same concrete input agree. -/
theorem C6_witness :
    valuate provW rulesW rawW schemaW 3 5 = valuate provW rulesW rawW schemaW 3 5 :=
  C6_determinism provW rulesW rawW schemaW 3 5
    (valuate provW rulesW rawW schemaW 3 5) (valuate provW rulesW rawW schemaW 3 5)
    rfl rfl

theorem chainLtYears_projectionFrom :
    ∀ (n : Nat) (v r : ℚ) (s : Nat), chainLtYears (projectionFrom v r s n) = true := by
  intro n
  induction n with
  | zero => intro v r s; rfl
  | succ m ih =>
    intro v r s
    cases m with
    | zero => rfl
    | succ k =>
      show (decide (s + 1 < s + 1 + 1) &&
          chainLtYears ((s + 1 + 1, v * r * r) ::
            projectionFrom (v * r * r) r (s + 1 + 1) k)) = true
      rw [Bool.and_eq_true]
      exact ⟨by simp, ih (v * r) r (s + 1)⟩

theorem chainLtVals_projectionFrom :
    ∀ (n : Nat) (v r : ℚ) (s : Nat), 0 < v → 1 < r →
      chainLtVals (projectionFrom v r s n) = true := by
  intro n
  induction n with
  | zero => intro v r s _ _; rfl
  | succ m ih =>
    intro v r s hv hr
    cases m with
    | zero => rfl
    | succ k =>
      show (decide (v * r < v * r * r) &&
          chainLtVals ((s + 1 + 1, v * r * r) ::
            projectionFrom (v * r * r) r (s + 1 + 1) k)) = true
      have hvr : 0 < v * r := mul_pos hv (lt_trans one_pos hr)
      rw [Bool.and_eq_true]
      refine ⟨?_, ih (v * r) r (s + 1) hvr hr⟩
      rw [decide_eq_true_eq]
      calc v * r = v * r * 1 := by ring
      _ < v * r * r := mul_lt_mul_of_pos_left hr hvr

theorem allValEq_projectionFrom_one :
    ∀ (n : Nat) (v : ℚ) (s : Nat), allValEq v (projectionFrom v 1 s n) = true := by
  intro n
  induction n with
  | zero => intro v s; rfl
  | succ m ih =>
    intro v s
    show allValEq v ((s + 1, v * 1) :: projectionFrom (v * 1) 1 (s + 1) m) = true
    rw [mul_one v]
    show ((v == v) && (projectionFrom v 1 (s + 1) m).all (fun e => e.2 == v)) = true
    rw [Bool.and_eq_true]
    exact ⟨by simp, ih v (s + 1)⟩

/-- Counterexample to claim C3 as stated: with a provider that
recovers the legal base rent 0, the adjusted rent is present (it is 0)
and the growth rate is positive (5), yet the projection series is
constant at 0, not strictly increasing year over year. -/
theorem C3_counterexample :
    (valuate provZeroW rulesW rawW schemaW 2 5).adjusted_rent = some 0 ∧
    (0 : ℚ) < 5 ∧
    chainLtVals (valuate provZeroW rulesW rawW schemaW 2 5).projection = false := by
  have hstep : step1 provZeroW rawW schemaW = some 0 := by decide
  refine ⟨?_, by norm_num, ?_⟩
  · unfold valuate
    simp only [hstep]
    simp
  · unfold valuate
    simp only [hstep]
    have hproj : ∀ r : ℚ,
        projectionFrom (0 * (1 + uplift rawW rulesW / 100) *
          (4 / 5) ^ (validate rulesW rawW).length) r 0 2 = [(1, 0), (2, 0)] := by
      intro r
      simp only [zero_mul]
      show ((1 : Nat), (0 : ℚ) * r) :: ((2 : Nat), 0 * r * r) :: [] = [(1, 0), (2, 0)]
      simp
    rw [hproj]
    decide

/-- Claim C3 (amended): for a valuation with a non-absent adjusted
rent, the projection series is ordered by strictly increasing year;
when the adjusted rent is positive and the growth rate positive, the
values strictly increase year over year; when the growth rate is zero,
every value equals the adjusted rent.  (The amendment adds the
positivity of the adjusted rent, forced by `C3_counterexample`.) -/
theorem C3_projection_amended (prov : ArtifactProvider) (rules : RuleTable)
    (raw : RawAttributes) (schema : ColumnSchema) (Y : Nat) (g : ℚ) (a : ℚ)
    (h : (valuate prov rules raw schema Y g).adjusted_rent = some a) :
    chainLtYears (valuate prov rules raw schema Y g).projection = true ∧
    (0 < a → 0 < g →
      chainLtVals (valuate prov rules raw schema Y g).projection = true) ∧
    (g = 0 → allValEq a (valuate prov rules raw schema Y g).projection = true) := by
  unfold valuate at h ⊢
  cases hs : step1 prov raw schema with
  | none =>
    rw [hs] at h
    simp at h
  | some b =>
    simp only [hs] at h ⊢
    have ha : b * (1 + uplift raw rules / 100) *
        (4 / 5) ^ (validate rules raw).length = a := Option.some.inj h
    refine ⟨chainLtYears_projectionFrom Y _ _ 0, ?_, ?_⟩
    · intro hpos hg
      refine chainLtVals_projectionFrom Y _ _ 0 ?_ ?_
      · rw [ha]
        exact hpos
      · have hq : 0 < g / 100 := by positivity
        linarith
    · intro hg0
      subst hg0
      rw [ha, show (1 : ℚ) + 0 / 100 = 1 by norm_num]
      exact allValEq_projectionFrom_one Y a 0

/-- Witness for the amended C3: base rent 100, one 5% amenity, growth
rate 10, three projected years, adjusted rent 105. -/
theorem C3_witness :
    (valuate provW rulesW rawW schemaW 3 10).adjusted_rent = some 105 ∧
    (chainLtYears (valuate provW rulesW rawW schemaW 3 10).projection = true ∧
      ((0 : ℚ) < 105 → (0 : ℚ) < 10 →
        chainLtVals (valuate provW rulesW rawW schemaW 3 10).projection = true) ∧
      ((10 : ℚ) = 0 →
        allValEq 105 (valuate provW rulesW rawW schemaW 3 10).projection = true)) := by
  have hstep : step1 provW rawW schemaW = some 100 := by decide
  have hu : uplift rawW rulesW = 5 := by
    rw [show uplift rawW rulesW = ((5 : ℚ) + (0 + 0) : ℚ) from rfl]
    norm_num
  have h6 : outlierWarnings rulesW rawW = [] := by
    unfold outlierWarnings
    simp only [show lookupCat rulesW (getStr rawW "category") = Option.none from rfl,
      show getNum rawW "parking_slots" = 0 from rfl,
      show getNum rawW "size" = 1000 from rfl]
    norm_num
  have hw : validate rulesW rawW = [] := by
    unfold validate
    rw [show areaWarnings rawW = [] from rfl,
      show boundWarnings rulesW rawW = [] from rfl,
      show sizeWarnings rulesW rawW = [] from rfl,
      show floorWarnings rawW = [] from rfl,
      show businessWarnings rulesW rawW = [] from rfl, h6]
    rfl
  have hv : (valuate provW rulesW rawW schemaW 3 10).adjusted_rent = some 105 := by
    unfold valuate
    simp only [hstep, hu, hw]
    norm_num
  exact ⟨hv, C3_projection_amended provW rulesW rawW schemaW 3 10 105 hv⟩

/-- Claim C4: `align` returns a vector of exactly the schema's length,
in schema order (entry `i` is the aligned cell of schema column `i`),
and every column satisfied neither by categorical expansion nor by
direct numeric copy holds zero. -/
theorem C4_schema_completeness (raw : RawAttributes) (schema : ColumnSchema) :
    (align raw schema).length = schema.length ∧
    (∀ i (h1 : i < (align raw schema).length) (h2 : i < schema.length),
      (align raw schema).get ⟨i, h1⟩ = alignCell raw (schema.get ⟨i, h2⟩) ∧
      (catIndicator raw (schema.get ⟨i, h2⟩) = false →
        numLookup raw (schema.get ⟨i, h2⟩) = Option.none →
        (align raw schema).get ⟨i, h1⟩ = 0)) := by
  refine ⟨by simp [align], ?_⟩
  intro i h1 h2
  have hg : (align raw schema).get ⟨i, h1⟩ = alignCell raw (schema.get ⟨i, h2⟩) := by
    simp [align]
  refine ⟨hg, ?_⟩
  intro hcat hnum
  rw [hg]
  unfold alignCell
  rw [if_neg (show ¬catIndicator raw (schema.get ⟨i, h2⟩) = true by
    rw [hcat]; exact Bool.false_ne_true), hnum]

/-- Witness for C4: a two-column schema whose second column the raw map
cannot satisfy; the aligned vector is full length and holds zero
there. -/
theorem C4_witness :
    (align rawW schemaW2).length = schemaW2.length ∧
    catIndicator rawW "missing_col" = false ∧
    numLookup rawW "missing_col" = Option.none ∧
    (align rawW schemaW2).get ⟨1, by decide⟩ = 0 := by
  refine ⟨(C4_schema_completeness rawW schemaW2).1, by decide, by decide, ?_⟩
  exact ((C4_schema_completeness rawW schemaW2).2 1 (by decide) (by decide)).2
    (by decide) (by decide)

theorem uplift_sum_aux :
    ∀ (ams : List (String × ℚ)) (rA rB rAB : RawAttributes),
      (∀ e ∈ ams, getFlag rAB e.1 = (getFlag rA e.1 || getFlag rB e.1) ∧
        ¬(getFlag rA e.1 = true ∧ getFlag rB e.1 = true)) →
      (ams.map (fun e => if getFlag rAB e.1 then e.2 else 0)).sum =
        (ams.map (fun e => if getFlag rA e.1 then e.2 else 0)).sum +
        (ams.map (fun e => if getFlag rB e.1 then e.2 else 0)).sum := by
  intro ams
  induction ams with
  | nil => intro rA rB rAB _; simp
  | cons e rest ih =>
    intro rA rB rAB h
    have he := h e (List.mem_cons_self e rest)
    have hrest := ih rA rB rAB (fun x hx => h x (List.mem_cons_of_mem e hx))
    simp only [List.map_cons, List.sum_cons, hrest]
    cases ha : getFlag rA e.1 with
    | false =>
      cases hb : getFlag rB e.1 with
      | false =>
        have hab : getFlag rAB e.1 = false := by simp [he.1, ha, hb]
        rw [hab]
        simp
        try ring
      | true =>
        have hab : getFlag rAB e.1 = true := by simp [he.1, ha, hb]
        rw [hab]
        simp
        try ring
    | true =>
      cases hb : getFlag rB e.1 with
      | false =>
        have hab : getFlag rAB e.1 = true := by simp [he.1, ha, hb]
        rw [hab]
        simp
        try ring
      | true =>
        exact absurd ⟨ha, hb⟩ he.2

/-- Claim C5: uplift is additive over disjoint amenity selections —
when every amenity flag of the combined map is the disjoint union of
the flags of the two maps, the combined uplift is the sum of the two
uplifts — and the uplift is invariant under reordering of the amenity
table (summation order is irrelevant). -/
theorem C5_uplift_additivity :
    (∀ (table : RuleTable) (rA rB rAB : RawAttributes),
      (∀ e ∈ table.amenities,
        getFlag rAB e.1 = (getFlag rA e.1 || getFlag rB e.1) ∧
        ¬(getFlag rA e.1 = true ∧ getFlag rB e.1 = true)) →
      uplift rAB table = uplift rA table + uplift rB table) ∧
    (∀ (raw : RawAttributes) (t t' : RuleTable),
      t.amenities.Perm t'.amenities → uplift raw t = uplift raw t') := by
  constructor
  · intro table rA rB rAB h
    exact uplift_sum_aux table.amenities rA rB rAB h
  · intro raw t t' hp
    unfold uplift
    exact List.Perm.sum_eq (hp.map _)

/-- Witness for C5: disjoint selections `swimming_pool` and `gym` over
the concrete two-amenity table. -/
theorem C5_witness :
    (∀ e ∈ rulesW.amenities,
      getFlag rawABW e.1 = (getFlag rawAW e.1 || getFlag rawBW e.1) ∧
      ¬(getFlag rawAW e.1 = true ∧ getFlag rawBW e.1 = true)) ∧
    uplift rawABW rulesW = uplift rawAW rulesW + uplift rawBW rulesW :=
  ⟨by decide, C5_uplift_additivity.1 rulesW rawAW rawBW rawABW (by decide)⟩

theorem filter_area_bound (rules : RuleTable) (raw : RawAttributes) :
    (boundWarnings rules raw).filter isAreaW = [] := by
  unfold boundWarnings
  cases hc : lookupCat rules (getStr raw "category") with
  | none => rfl
  | some cr =>
    simp only []
    split_ifs <;> rfl

theorem filter_area_size (rules : RuleTable) (raw : RawAttributes) :
    (sizeWarnings rules raw).filter isAreaW = [] := by
  unfold sizeWarnings
  cases hc : lookupCat rules (getStr raw "category") with
  | none => rfl
  | some cr =>
    simp only []
    split_ifs <;> rfl

theorem filter_area_floor (raw : RawAttributes) :
    (floorWarnings raw).filter isAreaW = [] := by
  unfold floorWarnings
  split_ifs <;> rfl

theorem filter_area_business (rules : RuleTable) (raw : RawAttributes) :
    (businessWarnings rules raw).filter isAreaW = [] := by
  unfold businessWarnings
  cases hc : lookupCat rules (getStr raw "category") with
  | none =>
    simp only []
    split_ifs <;> rfl
  | some cr =>
    simp only []
    split_ifs <;> rfl

theorem filter_area_outlier (rules : RuleTable) (raw : RawAttributes) :
    (outlierWarnings rules raw).filter isAreaW = [] := by
  unfold outlierWarnings
  cases hc : lookupCat rules (getStr raw "category") with
  | none =>
    simp only []
    split_ifs <;> rfl
  | some cr =>
    simp only []
    split_ifs <;> rfl

theorem validate_filter_area (rules : RuleTable) (raw : RawAttributes) :
    (validate rules raw).filter isAreaW = (areaWarnings raw).filter isAreaW := by
  unfold validate
  rw [List.filter_append, List.filter_append, List.filter_append,
    List.filter_append, List.filter_append,
    filter_area_bound, filter_area_size, filter_area_floor,
    filter_area_business, filter_area_outlier]
  simp

/-- Claim C7: with total size 1000 and declared type "Built-up Area",
a declared value of 750 makes `validate` emit exactly one
area-consistency warning, naming the expected range 800–900, while a
declared value of 850 emits no area-consistency warning. -/
theorem C7_area_boundary (rules : RuleTable) (raw raw' : RawAttributes)
    (h1 : getStr raw "area_type" = "Built-up Area")
    (h2 : getNum raw "size" = 1000)
    (h3 : getNum raw "area_value" = 750)
    (h4 : getStr raw' "area_type" = "Built-up Area")
    (h5 : getNum raw' "size" = 1000)
    (h6 : getNum raw' "area_value" = 850) :
    (validate rules raw).filter isAreaW = [Warning.areaConsistency 800 900] ∧
    (validate rules raw').filter isAreaW = [] := by
  constructor
  · rw [validate_filter_area]
    have ha : areaWarnings raw = [Warning.areaConsistency 800 900] := by
      unfold areaWarnings
      rw [h1, h2, h3]
      norm_num [expectedAreaRange]
    rw [ha]
    rfl
  · rw [validate_filter_area]
    have ha : areaWarnings raw' = [] := by
      unfold areaWarnings
      rw [h4, h5, h6]
      norm_num [expectedAreaRange]
    rw [ha]
    rfl

/-- Witness for C7: two concrete attribute maps with total size 1000
and declared built-up values 750 and 850. -/
theorem C7_witness :
    getStr rawC7a "area_type" = "Built-up Area" ∧
    getNum rawC7a "size" = 1000 ∧ getNum rawC7a "area_value" = 750 ∧
    getStr rawC7b "area_type" = "Built-up Area" ∧
    getNum rawC7b "size" = 1000 ∧ getNum rawC7b "area_value" = 850 ∧
    (validate rulesW rawC7a).filter isAreaW = [Warning.areaConsistency 800 900] ∧
    (validate rulesW rawC7b).filter isAreaW = [] := by
  have h := C7_area_boundary rulesW rawC7a rawC7b (by decide) (by decide)
    (by decide) (by decide) (by decide) (by decide)
  exact ⟨by decide, by decide, by decide, by decide, by decide, by decide,
    h.1, h.2⟩
